import Mathlib

/-!
Shallow embedding of the dati91/webrender renderer, device, pipeline and
reftest code (src/webrender/src/renderer.rs, src/webrender/src/device.rs,
src/webrender/src/pipelines.rs, src/wrench/src/reftest.rs), together with
theorems settling the specification claims about it.

Machine integers of the source (u32, usize, u16) are modelled as Nat; the
f32 payloads that the claims never compute with (colors, depth values,
gpu-cache floats) are carried as opaque Int tokens.  Fallible code paths
(Rust panics from unwrap / expect / assert / slice indexing) are modelled
with Option or an explicit error constructor.
-/

/-- Color with the four f32 channels of webrender_traits::ColorF; the
channel values are carried opaquely, no arithmetic is done on them. -/
structure ColorF where
  r : Int
  g : Int
  b : Int
  a : Int
deriving Repr, DecidableEq

/-- ColorF::to_array. -/
def ColorF.to_array (c : ColorF) : List Int :=
  [c.r, c.g, c.b, c.a]

/-- tiling::Frame as used by renderer.rs: a built frame with an optional
background color and a list of render passes (pass contents are opaque
here; renderer.rs only ever asks whether the list is empty). -/
structure TileFrame where
  background_color : Option ColorF
  passes : List Nat
deriving Repr, DecidableEq

/-- internal_types::RendererFrame as used by renderer.rs: the per-pipeline
epoch map carried with the frame, and the optional built tile frame. -/
structure RendererFrame where
  pipeline_epoch_map : List (Nat × Nat)
  frame : Option TileFrame
deriving Repr, DecidableEq

/-- internal_types::ResultMsg, the messages the backend sends over the
result channel.  NewFrame carries the frame plus texture / external image
update lists (opaque here); RefreshShader carries a path (opaque). -/
inductive ResultMsg where
  | NewFrame (frame : RendererFrame) (texture_update_list : List Nat)
      (external_image_update_list : List Nat)
  | RefreshShader (path : Nat)
deriving Repr, DecidableEq

/-- The fields of renderer::Renderer that Renderer::update and
Renderer::render touch: the stored newest frame and the epoch map. -/
structure Renderer where
  current_frame : Option RendererFrame
  pipeline_epoch_map : List (Nat × Nat)
deriving Repr, DecidableEq

/-- HashMap::insert on the association-list model of the epoch map:
replace the binding of an existing key, otherwise append it. -/
def insertEpoch (m : List (Nat × Nat)) (key value : Nat) : List (Nat × Nat) :=
  if m.any (fun p => p.1 = key) then
    m.map (fun p => if p.1 = key then (key, value) else p)
  else
    m ++ [(key, value)]

/-- The body of the match in Renderer::update for one received message:
a NewFrame message merges its epoch map and replaces current_frame; a
RefreshShader message changes nothing that the claims observe. -/
def Renderer.processResult (st : Renderer) (msg : ResultMsg) : Renderer :=
  match msg with
  | ResultMsg.NewFrame frame _ _ =>
      { st with
        pipeline_epoch_map :=
          frame.pipeline_epoch_map.foldl (fun m p => insertEpoch m p.1 p.2)
            st.pipeline_epoch_map,
        current_frame := some frame }
  | ResultMsg.RefreshShader _ => st

/-- Renderer::update: the while-let try_recv loop drains exactly the
messages pending on the result channel, in order, without waiting. -/
def Renderer.update (st : Renderer) (pending : List ResultMsg) : Renderer :=
  pending.foldl Renderer.processResult st

/-- The frame carried by a message, if it is a NewFrame message. -/
def newFrameOf : ResultMsg → Option RendererFrame
  | ResultMsg.NewFrame frame _ _ => some frame
  | ResultMsg.RefreshShader _ => none

/-- The frame carried by the last pending NewFrame message, if any. -/
def lastNewFrame (pending : List ResultMsg) : Option RendererFrame :=
  pending.foldl
    (fun acc msg =>
      match newFrameOf msg with
      | some f => some f
      | none => acc)
    none

/-- The calls Renderer::render issues on the Device. -/
inductive DeviceCall where
  | clear_target (color : Option (List Int)) (depth : Option Int)
  | draw
deriving Repr, DecidableEq

/-- Renderer::render: takes the stored frame, clears and draws when a
built frame with a background color is present, and always restores the
stored frame afterwards.  The background_color unwrap is a Rust panic
when the color is absent, modelled as none. -/
def Renderer.render (st : Renderer) : Option (Renderer × List DeviceCall) :=
  match st.current_frame with
  | none => some (st, [])
  | some frame =>
    match frame.frame with
    | none => some ({ st with current_frame := some frame }, [])
    | some tile =>
      match tile.background_color with
      | none => none
      | some color =>
          some ({ st with current_frame := some frame },
            [DeviceCall.clear_target (some color.to_array) (some 1),
             DeviceCall.draw])

/-- internal_types::TextureSampler, restricted to the variants device.rs
mentions: the five bindable slots, the Dither slot (whose rebinding is
unreachable code), and the two f32 data samplers. -/
inductive TextureSampler where
  | Color0
  | Color1
  | Color2
  | CacheA8
  | CacheRGBA8
  | Dither
  | Layers
  | RenderTasks
deriving Repr, DecidableEq

/-- The fields of device::Device the claims observe: the key set of the
texture table (TextureId.name values) and the five sampler slots. -/
structure Device where
  textures : List Nat
  color0_tex_id : Nat
  color1_tex_id : Nat
  color2_tex_id : Nat
  cache_a8_tex_id : Nat
  cache_rgba8_tex_id : Nat
deriving Repr, DecidableEq

/-- Device::bind_texture: look the id up in the texture table, returning
with nothing changed when it is absent; otherwise set the addressed
sampler slot.  The Dither arm is an unreachable panic, modelled as none;
the remaining samplers only log. -/
def Device.bind_texture (d : Device) (sampler : TextureSampler)
    (texture_id : Nat) : Option Device :=
  if texture_id ∈ d.textures then
    match sampler with
    | TextureSampler.Color0 => some { d with color0_tex_id := texture_id }
    | TextureSampler.Color1 => some { d with color1_tex_id := texture_id }
    | TextureSampler.Color2 => some { d with color2_tex_id := texture_id }
    | TextureSampler.CacheA8 => some { d with cache_a8_tex_id := texture_id }
    | TextureSampler.CacheRGBA8 => some { d with cache_rgba8_tex_id := texture_id }
    | TextureSampler.Dither => none
    | _ => some d
  else
    some d

/-- device::MAX_INSTANCE_COUNT. -/
def MAX_INSTANCE_COUNT : Nat := 5000

/-- The indices of the upload buffer written by one Device::draw call in
pipelines.rs: instance i of the call goes to writer[i + upload_offset]. -/
def drawWriteIndices (upload_offset n : Nat) : List Nat :=
  (List.range n).map (fun i => i + upload_offset)

/-- The upload-buffer indices written by a sequence of Device::draw calls
with the given instance counts, starting from the given upload offset;
each call advances the offset by its instance count. -/
def drawSequenceIndices : Nat → List Nat → List Nat
  | _, [] => []
  | upload_offset, n :: rest =>
      drawWriteIndices upload_offset n ++ drawSequenceIndices (upload_offset + n) rest

/-- renderer::MAX_VERTEX_TEXTURE_WIDTH. -/
def MAX_VERTEX_TEXTURE_WIDTH : Nat := 1024

/-- device::RGBA_STRIDE. -/
def RGBA_STRIDE : Nat := 4

/-- device::A_STRIDE. -/
def A_STRIDE : Nat := 1

/-- device::RG_STRIDE. -/
def RG_STRIDE : Nat := 2

/-- device::RGB_STRIDE. -/
def RGB_STRIDE : Nat := 3

/-- gfx::texture::ImageInfoCommon, the region descriptor of a partial
texture update (the format field carries no data). -/
structure ImageInfoCommon where
  xoffset : Nat
  yoffset : Nat
  zoffset : Nat
  width : Nat
  height : Nat
  depth : Nat
  mipmap : Nat
deriving Repr, DecidableEq

/-- Device::update_gpu_texture: asserts the data is exactly one texture
row (MAX_VERTEX_TEXTURE_WIDTH texels of four floats) and issues a partial
texture update of that single row at y-offset row_index. -/
def update_gpu_texture (row_index : Nat) (memory : List Int) :
    Option (ImageInfoCommon × List Int) :=
  if memory.length = MAX_VERTEX_TEXTURE_WIDTH * RGBA_STRIDE then
    some ({ xoffset := 0, yoffset := row_index, zoffset := 0,
            width := MAX_VERTEX_TEXTURE_WIDTH, height := 1,
            depth := 0, mipmap := 0 }, memory)
  else
    none

/-- Device::update_gpu_cache (default, non-dx11 configuration): delegates
to update_gpu_texture on the resource_cache data texture. -/
def update_gpu_cache (row_index : Nat) (data : List Int) :
    Option (ImageInfoCommon × List Int) :=
  update_gpu_texture row_index data

/-- Texel idx of an uploaded memory block: four consecutive floats. -/
def texelsOfMemory (memory : List Int) (idx : Nat) : List Int :=
  [memory.getD (idx * RGBA_STRIDE) 0, memory.getD (idx * RGBA_STRIDE + 1) 0,
   memory.getD (idx * RGBA_STRIDE + 2) 0, memory.getD (idx * RGBA_STRIDE + 3) 0]

/-- The effect of a gfx partial texture update on a texture modelled as a
row / column indexed grid of texels: texels inside the described region
take the uploaded data, all others keep their previous value. -/
def applyTextureUpdate (tex : Nat → Nat → List Int) (info : ImageInfoCommon)
    (memory : List Int) : Nat → Nat → List Int :=
  fun r c =>
    if info.yoffset ≤ r ∧ r < info.yoffset + info.height ∧
        info.xoffset ≤ c ∧ c < info.xoffset + info.width then
      texelsOfMemory memory ((r - info.yoffset) * info.width + (c - info.xoffset))
    else
      tex r c

/-- Modelled from the spec: renderer.rs of this snapshot does not contain
the constant declarations DUMMY_RGBA8_ID, DUMMY_A8_ID and DITHER_ID that
device.rs imports from it; the reserved texture ids (invalid = 0,
invalid_a8 = 1, the two dummy ids and the dither id) occupy the small
values below FIRST_UNRESERVED_ID. -/
def DUMMY_RGBA8_ID : Nat := 2

/-- Modelled from the spec: see DUMMY_RGBA8_ID. -/
def DUMMY_A8_ID : Nat := 3

/-- Modelled from the spec: see DUMMY_RGBA8_ID. -/
def DITHER_ID : Nat := 4

/-- device::FIRST_UNRESERVED_ID = DITHER_ID + 1. -/
def FIRST_UNRESERVED_ID : Nat := DITHER_ID + 1

/-- u32::max_value(). -/
def u32_max_value : Nat := 4294967295

/-- rand gen_range(lo, hi) on a raw rng output r: a value in [lo, hi). -/
def gen_range (lo hi r : Nat) : Nat :=
  lo + r % (hi - lo)

/-- The while loop of Device::generate_texture_id: starting from
TextureId::invalid() (name 0), redraw a random name in
[FIRST_UNRESERVED_ID, u32::max_value()) while the current name is a key
of the texture table.  The rng is modelled as the list of raw outputs it
will produce; none means the modelled outputs were exhausted while still
colliding. -/
def generateIdLoop (textures : List Nat) : Nat → List Nat → Option Nat
  | current, [] => if current ∈ textures then none else some current
  | current, r :: rest =>
      if current ∈ textures then
        generateIdLoop textures (gen_range FIRST_UNRESERVED_ID u32_max_value r) rest
      else
        some current

/-- Device::generate_texture_id. -/
def Device.generate_texture_id (d : Device) (rng : List Nat) : Option Nat :=
  generateIdLoop d.textures 0 rng

/-- Device::create_texture: generate an id, assert it is not already a
key of the texture table (a failing assert is a panic, modelled as none),
then insert the new texture under it. -/
def Device.create_texture (d : Device) (rng : List Nat) : Option (Nat × Device) :=
  match d.generate_texture_id rng with
  | none => none
  | some texture_id =>
      if texture_id ∈ d.textures then
        none
      else
        some (texture_id, { d with textures := texture_id :: d.textures })

/-- The result of ReftestImage::compare in wrench/src/reftest.rs. -/
inductive ReftestImageComparison where
  | Equal
  | NotEqual (max_difference : Nat) (count_different : Nat)
deriving Repr, DecidableEq

/-- The reftest operators. -/
inductive ReftestOp where
  | Equal
  | NotEqual
deriving Repr, DecidableEq

/-- slice::chunks(4): split a byte list into chunks of four, the last
chunk possibly shorter. -/
def chunks4 : List Nat → List (List Nat)
  | a :: b :: c :: d :: rest => [a, b, c, d] :: chunks4 rest
  | [] => []
  | l => [l]

/-- The per-pixel maximum channel difference computed inside
ReftestImage::compare: zip the two chunks and take the maximum absolute
difference (the iterator max over a nonempty chunk, with 0 for empty). -/
def pixelMax (a b : List Nat) : Nat :=
  ((a.zip b).map (fun p => ((p.1 : Int) - (p.2 : Int)).natAbs)).foldl max 0

/-- One step of the comparison loop of ReftestImage::compare, on the
accumulator (count, max). -/
def compareStep (acc : Nat × Nat) (p : List Nat × List Nat) : Nat × Nat :=
  if p.1 ≠ p.2 then (acc.1 + 1, max acc.2 (pixelMax p.1 p.2)) else acc

/-- ReftestImage::compare on the raw RGBA8 byte data of two images (the
asserted preconditions - equal sizes, length divisible by four - appear
as hypotheses of the theorems). -/
def ReftestImage.compare (a b : List Nat) : ReftestImageComparison :=
  let r := ((chunks4 a).zip (chunks4 b)).foldl compareStep (0, 0)
  if r.1 ≠ 0 then ReftestImageComparison.NotEqual r.2 r.1
  else ReftestImageComparison.Equal

/-- The pass verdict of ReftestHarness::run_reftest as a function of the
test operator, the fuzz bounds of the test and the comparison result. -/
def run_reftest_pass (op : ReftestOp) (max_difference num_differences : Nat)
    (comparison : ReftestImageComparison) : Bool :=
  match op, comparison with
  | ReftestOp.Equal, ReftestImageComparison.Equal => true
  | ReftestOp.Equal, ReftestImageComparison.NotEqual md cd =>
      if md > max_difference || cd > num_differences then false else true
  | ReftestOp.NotEqual, ReftestImageComparison.Equal => false
  | ReftestOp.NotEqual, ReftestImageComparison.NotEqual _ _ => true

/-- The number of differing 4-byte pixels of two images, stated the way
the claim states it (for comparison against the loop of compare). -/
def countDifferentPixels (a b : List Nat) : Nat :=
  (((chunks4 a).zip (chunks4 b)).filter (fun p => p.1 ≠ p.2)).length

/-- The maximum per-channel absolute difference over all differing
pixels, stated the way the claim states it. -/
def maxPixelDifference (a b : List Nat) : Nat :=
  ((((chunks4 a).zip (chunks4 b)).filter (fun p => p.1 ≠ p.2)).map
    (fun p => pixelMax p.1 p.2)).foldl max 0

/-- Modelled from the spec: the render-task-to-pass assignment of the
frame builder (tiling.rs / render_task.rs are not part of this snapshot;
renderer.rs only consumes frame.passes).  Following the spec build
algorithm, add_task appends one task: its pass index is 0 when it has no
dependencies and 1 + max of the pass indices of its dependencies
otherwise. -/
def addTaskPass (passes : List Nat) (deps : List Nat) : List Nat :=
  passes ++
    [if deps.isEmpty then 0
     else (deps.map (fun d => passes.getD d 0)).foldl max 0 + 1]

/-- Modelled from the spec: the pass indices of a task graph given as the
dependency lists of its tasks in construction order (every dependency of
a task is an earlier task). -/
def buildPasses (tasks : List (List Nat)) : List Nat :=
  tasks.foldl addTaskPass []

/-- Wellformedness of a task graph in construction order: dependencies
point to already created tasks. -/
def depsWellFormed (tasks : List (List Nat)) : Prop :=
  ∀ t, t < tasks.length → ∀ d ∈ tasks.getD t [], d < t

/-- Apply a list of (index, value) writes to a byte buffer, in order. -/
def applyWrites (ws : List (Nat × Nat)) (l : List Nat) : List Nat :=
  ws.foldl (fun acc p => acc.set p.1 p.2) l

/-- The four writes the inner loop body of Device::read_pixels performs
for the output pixel (i, j): output[offset + k] takes byte k of the
framebuffer pixel at column origin.x + i, row origin.y + j, where data
is the full w-wide framebuffer readback and offset = i * RGBA_STRIDE +
j * rect.width * RGBA_STRIDE. -/
def pixelWrites (w ox oy width : Nat) (data : List Nat) (j i : Nat) :
    List (Nat × Nat) :=
  [(i * RGBA_STRIDE + j * width * RGBA_STRIDE,
      data.getD ((j + oy) * w * RGBA_STRIDE + (i + ox) * RGBA_STRIDE) 0),
   (i * RGBA_STRIDE + j * width * RGBA_STRIDE + 1,
      data.getD ((j + oy) * w * RGBA_STRIDE + (i + ox) * RGBA_STRIDE + 1) 0),
   (i * RGBA_STRIDE + j * width * RGBA_STRIDE + 2,
      data.getD ((j + oy) * w * RGBA_STRIDE + (i + ox) * RGBA_STRIDE + 2) 0),
   (i * RGBA_STRIDE + j * width * RGBA_STRIDE + 3,
      data.getD ((j + oy) * w * RGBA_STRIDE + (i + ox) * RGBA_STRIDE + 3) 0)]

/-- The copy loops of Device::read_pixels: for each row j and column i of
the requested rect, copy the four bytes of the corresponding framebuffer
pixel into the output buffer.  data is the w * h * RGBA_STRIDE readback
of the whole framebuffer; (ox, oy) is rect.origin. -/
def Device.read_pixels (w ox oy width height : Nat)
    (data output : List Nat) : List Nat :=
  (List.range height).foldl
    (fun out j =>
      (List.range width).foldl
        (fun out2 i => applyWrites (pixelWrites w ox oy width data j i) out2)
        out)
    output

/-- The flattened write list of Device::read_pixels. -/
def readPixelsWriteList (w ox oy width height : Nat) (data : List Nat) :
    List (Nat × Nat) :=
  (List.range height).flatMap (fun j =>
    (List.range width).flatMap (fun i => pixelWrites w ox oy width data j i))

/-- Device::convert_data_to_rgba8: expand data with orig_stride channels
per pixel into a zero-initialized RGBA8 buffer, copying channel s of
every pixel. -/
def convert_data_to_rgba8 (width height : Nat) (data : List Nat)
    (orig_stride : Nat) : List Nat :=
  (List.range orig_stride).foldl
    (fun nd s =>
      (List.range height).foldl
        (fun nd2 h =>
          (List.range width).foldl
            (fun nd3 w2 =>
              nd3.set (s + w2 * RGBA_STRIDE + h * width * RGBA_STRIDE)
                (data.getD (s + w2 * orig_stride + h * width * orig_stride) 0))
            nd2)
        nd)
    (List.replicate (width * height * RGBA_STRIDE) 0)

/-- The flattened write list of Device::convert_data_to_rgba8. -/
def rgba8WriteList (width height : Nat) (data : List Nat)
    (orig_stride : Nat) : List (Nat × Nat) :=
  (List.range orig_stride).flatMap (fun s =>
    (List.range height).flatMap (fun h =>
      (List.range width).map (fun w2 =>
        (s + w2 * RGBA_STRIDE + h * width * RGBA_STRIDE,
         data.getD (s + w2 * orig_stride + h * width * orig_stride) 0))))

/-- The four writes Device::convert_data_to_bgra8 performs for the pixel
(i, j): bytes 0 and 2 are swapped relative to the source pixel, which is
read at row pitch data_pitch. -/
def bgraPixelWrites (width data_pitch : Nat) (data : List Nat) (j i : Nat) :
    List (Nat × Nat) :=
  [(i * RGBA_STRIDE + j * RGBA_STRIDE * width,
      data.getD (j * data_pitch + i * RGBA_STRIDE + 2) 0),
   (i * RGBA_STRIDE + j * RGBA_STRIDE * width + 1,
      data.getD (j * data_pitch + i * RGBA_STRIDE + 1) 0),
   (i * RGBA_STRIDE + j * RGBA_STRIDE * width + 2,
      data.getD (j * data_pitch + i * RGBA_STRIDE) 0),
   (i * RGBA_STRIDE + j * RGBA_STRIDE * width + 3,
      data.getD (j * data_pitch + i * RGBA_STRIDE + 3) 0)]

/-- Device::convert_data_to_bgra8: BGRA to RGBA conversion into a
zero-initialized buffer, reading each source row at data_pitch. -/
def convert_data_to_bgra8 (width height data_pitch : Nat)
    (data : List Nat) : List Nat :=
  (List.range height).foldl
    (fun nd j =>
      (List.range width).foldl
        (fun nd2 i => applyWrites (bgraPixelWrites width data_pitch data j i) nd2)
        nd)
    (List.replicate (width * height * RGBA_STRIDE) 0)

/-- The flattened write list of Device::convert_data_to_bgra8. -/
def bgraWriteList (width height data_pitch : Nat) (data : List Nat) :
    List (Nat × Nat) :=
  (List.range height).flatMap (fun j =>
    (List.range width).flatMap (fun i =>
      bgraPixelWrites width data_pitch data j i))

/-- webrender_traits::ImageFormat. -/
inductive ImageFormat where
  | Invalid
  | A8
  | RGB8
  | BGRA8
  | RGBAF32
  | RG8
deriving Repr, DecidableEq

/-- The outcome of Device::update_texture: an early return with no
texture modified, a Rust panic (missing texture, unimplemented format or
out-of-bounds source slice), or a texture update of the given region
with the given converted RGBA8 data. -/
inductive TexUpdateResult where
  | noChange
  | deviceError
  | updated (x0 y0 width height : Nat) (data : List Nat)
deriving Repr, DecidableEq

/-- Device::update_texture: return immediately when pixels is None;
panic when the texture id is unknown; convert A8 / RG8 / RGB8 data to
RGBA8 with zero padding; convert BGRA8 data to RGBA8 taking the row
stride (defaulting to width * RGBA_STRIDE) into account for every row
but the last; other formats are unimplemented panics. -/
def Device.update_texture (d : Device) (texture_id x0 y0 width height : Nat)
    (format : ImageFormat) (stride : Option Nat)
    (pixels : Option (List Nat)) : TexUpdateResult :=
  match pixels with
  | none => TexUpdateResult.noChange
  | some px =>
    if texture_id ∈ d.textures then
      match format with
      | ImageFormat.A8 =>
          TexUpdateResult.updated x0 y0 width height
            (convert_data_to_rgba8 width height px A_STRIDE)
      | ImageFormat.RG8 =>
          TexUpdateResult.updated x0 y0 width height
            (convert_data_to_rgba8 width height px RG_STRIDE)
      | ImageFormat.RGB8 =>
          TexUpdateResult.updated x0 y0 width height
            (convert_data_to_rgba8 width height px RGB_STRIDE)
      | ImageFormat.BGRA8 =>
          let row_length := match stride with
            | some value => value / RGBA_STRIDE
            | none => width
          let data_pitch := row_length * RGBA_STRIDE
          let len := data_pitch * (height - 1) + width * RGBA_STRIDE
          if len ≤ px.length then
            TexUpdateResult.updated x0 y0 width height
              (convert_data_to_bgra8 width height data_pitch (px.take len))
          else
            TexUpdateResult.deviceError
      | _ => TexUpdateResult.deviceError
    else
      TexUpdateResult.deviceError

theorem processResult_current_frame (st : Renderer) (msg : ResultMsg) :
    (Renderer.processResult st msg).current_frame =
      match newFrameOf msg with
      | some f => some f
      | none => st.current_frame := by
  cases msg <;> rfl

theorem update_current_frame_foldl (pending : List ResultMsg) :
    ∀ st : Renderer,
      (Renderer.update st pending).current_frame =
        pending.foldl
          (fun acc msg =>
            match newFrameOf msg with
            | some f => some f
            | none => acc)
          st.current_frame := by
  induction pending with
  | nil => intro st; rfl
  | cons m rest ih =>
      intro st
      have h1 : Renderer.update st (m :: rest) =
          Renderer.update (Renderer.processResult st m) rest := rfl
      rw [h1, ih, List.foldl_cons, processResult_current_frame]

theorem foldl_newFrame_acc (pending : List ResultMsg) :
    ∀ c : Option RendererFrame,
      pending.foldl
        (fun acc msg =>
          match newFrameOf msg with
          | some f => some f
          | none => acc)
        c =
      match lastNewFrame pending with
      | some f => some f
      | none => c := by
  induction pending with
  | nil => intro c; rfl
  | cons m rest ih =>
      intro c
      rw [List.foldl_cons]
      have h2 : lastNewFrame (m :: rest) =
          match lastNewFrame rest with
          | some f => some f
          | none =>
            match newFrameOf m with
            | some f => some f
            | none => none := by
        show rest.foldl _ _ = _
        rw [ih]
      rw [ih, h2]
      cases hrest : lastNewFrame rest <;> cases hm : newFrameOf m <;> simp [hm]

/-- C1: Renderer::update drains every pending message on the result
channel without waiting, and afterwards the current frame is the frame of
the last pending NewFrame message; with no pending NewFrame message the
current frame is unchanged (earlier pending frames are discarded). -/
theorem update_keeps_only_newest_frame (st : Renderer) (pending : List ResultMsg) :
    (Renderer.update st pending).current_frame =
      match lastNewFrame pending with
      | some f => some f
      | none => st.current_frame := by
  rw [update_current_frame_foldl, foldl_newFrame_acc]

/-- C5: Renderer::render restores the stored frame after drawing, issues
the clear and draw calls exactly when a built frame with a background
color is stored, and issues no device call at all when no frame has ever
been received. -/
theorem render_redraws_stored_frame (st : Renderer) (res : Renderer × List DeviceCall)
    (h : Renderer.render st = some res) :
    res.1.current_frame = st.current_frame ∧
    (st.current_frame = none → res.2 = []) ∧
    (∀ f tile color, st.current_frame = some f → f.frame = some tile →
      tile.background_color = some color →
      res.2 = [DeviceCall.clear_target (some color.to_array) (some 1),
               DeviceCall.draw]) := by
  obtain ⟨cf, pem⟩ := st
  cases cf with
  | none =>
      have h2 := Option.some.inj h
      subst h2
      refine ⟨rfl, fun _ => rfl, ?_⟩
      intro f tile color hf ht hc
      exact Option.noConfusion hf
  | some frame =>
      obtain ⟨pm, ff⟩ := frame
      cases ff with
      | none =>
          have h2 := Option.some.inj h
          subst h2
          refine ⟨rfl, fun hn => Option.noConfusion hn, ?_⟩
          intro f tile color hf ht hc
          have hf2 := Option.some.inj hf
          subst hf2
          exact Option.noConfusion ht
      | some tile =>
          obtain ⟨bg, passes⟩ := tile
          cases bg with
          | none => exact Option.noConfusion h
          | some color =>
              have h2 := Option.some.inj h
              subst h2
              refine ⟨rfl, fun hn => Option.noConfusion hn, ?_⟩
              intro f tile2 color2 hf ht hc
              have hf2 := Option.some.inj hf
              subst hf2
              have ht2 := Option.some.inj ht
              subst ht2
              have hc2 := Option.some.inj hc
              subst hc2
              rfl

/-- Witness for render_redraws_stored_frame at a renderer that has never
received a frame. -/
theorem render_redraws_stored_frame_witness :
    ((⟨none, []⟩ : Renderer), ([] : List DeviceCall)).1.current_frame =
        (⟨none, []⟩ : Renderer).current_frame ∧
    ((⟨none, []⟩ : Renderer).current_frame = none →
        ((⟨none, []⟩ : Renderer), ([] : List DeviceCall)).2 = []) ∧
    (∀ f tile color, (⟨none, []⟩ : Renderer).current_frame = some f →
      f.frame = some tile → tile.background_color = some color →
      ((⟨none, []⟩ : Renderer), ([] : List DeviceCall)).2 =
        [DeviceCall.clear_target (some color.to_array) (some 1),
         DeviceCall.draw]) :=
  render_redraws_stored_frame ⟨none, []⟩ (⟨none, []⟩, []) rfl

/-- C6: Device::bind_texture with an id present in the texture table sets
exactly the addressed sampler slot (the record updates leave the other
four slots untouched), and with an absent id changes no slot at all. -/
theorem bind_texture_sets_only_addressed_slot (d : Device) (id : Nat)
    (h : id ∈ d.textures) :
    d.bind_texture TextureSampler.Color0 id = some { d with color0_tex_id := id } ∧
    d.bind_texture TextureSampler.Color1 id = some { d with color1_tex_id := id } ∧
    d.bind_texture TextureSampler.Color2 id = some { d with color2_tex_id := id } ∧
    d.bind_texture TextureSampler.CacheA8 id = some { d with cache_a8_tex_id := id } ∧
    d.bind_texture TextureSampler.CacheRGBA8 id =
        some { d with cache_rgba8_tex_id := id } ∧
    ∀ id2 sampler, id2 ∉ d.textures → d.bind_texture sampler id2 = some d := by
  refine ⟨?_, ?_, ?_, ?_, ?_, ?_⟩
  · unfold Device.bind_texture; rw [if_pos h]
  · unfold Device.bind_texture; rw [if_pos h]
  · unfold Device.bind_texture; rw [if_pos h]
  · unfold Device.bind_texture; rw [if_pos h]
  · unfold Device.bind_texture; rw [if_pos h]
  · intro id2 sampler h2
    unfold Device.bind_texture
    rw [if_neg h2]

/-- Witness for bind_texture_sets_only_addressed_slot on a table holding
texture id 7. -/
theorem bind_texture_sets_only_addressed_slot_witness :
    (⟨[7], 0, 0, 0, 0, 0⟩ : Device).bind_texture TextureSampler.Color0 7 =
        some { (⟨[7], 0, 0, 0, 0, 0⟩ : Device) with color0_tex_id := 7 } ∧
    (⟨[7], 0, 0, 0, 0, 0⟩ : Device).bind_texture TextureSampler.Color1 7 =
        some { (⟨[7], 0, 0, 0, 0, 0⟩ : Device) with color1_tex_id := 7 } ∧
    (⟨[7], 0, 0, 0, 0, 0⟩ : Device).bind_texture TextureSampler.Color2 7 =
        some { (⟨[7], 0, 0, 0, 0, 0⟩ : Device) with color2_tex_id := 7 } ∧
    (⟨[7], 0, 0, 0, 0, 0⟩ : Device).bind_texture TextureSampler.CacheA8 7 =
        some { (⟨[7], 0, 0, 0, 0, 0⟩ : Device) with cache_a8_tex_id := 7 } ∧
    (⟨[7], 0, 0, 0, 0, 0⟩ : Device).bind_texture TextureSampler.CacheRGBA8 7 =
        some { (⟨[7], 0, 0, 0, 0, 0⟩ : Device) with cache_rgba8_tex_id := 7 } ∧
    ∀ id2 sampler, id2 ∉ (⟨[7], 0, 0, 0, 0, 0⟩ : Device).textures →
      (⟨[7], 0, 0, 0, 0, 0⟩ : Device).bind_texture sampler id2 =
        some (⟨[7], 0, 0, 0, 0, 0⟩ : Device) :=
  bind_texture_sets_only_addressed_slot ⟨[7], 0, 0, 0, 0, 0⟩ 7 (by decide)

theorem drawSequenceIndices_lt_sum (ns : List Nat) :
    ∀ off idx, idx ∈ drawSequenceIndices off ns → idx < off + ns.sum := by
  induction ns with
  | nil => intro off idx hidx; simp [drawSequenceIndices] at hidx
  | cons n rest ih =>
      intro off idx hidx
      simp only [drawSequenceIndices, List.mem_append] at hidx
      rcases hidx with hidx | hidx
      · simp only [drawWriteIndices, List.mem_map, List.mem_range] at hidx
        obtain ⟨i, hi, rfl⟩ := hidx
        simp only [List.sum_cons]
        omega
      · have := ih (off + n) idx hidx
        simp only [List.sum_cons]
        omega

/-- C8: under the precondition that the total instance count of a run of
Device::draw calls since the last upload-offset reset is at most
MAX_INSTANCE_COUNT, every write writer[i + upload_offset] the calls
perform hits an index below MAX_INSTANCE_COUNT, so the unchecked upload
buffer access stays in bounds. -/
theorem draw_instance_uploads_in_bounds (ns : List Nat)
    (h : ns.sum ≤ MAX_INSTANCE_COUNT) :
    ∀ idx ∈ drawSequenceIndices 0 ns, idx < MAX_INSTANCE_COUNT := by
  intro idx hidx
  have := drawSequenceIndices_lt_sum ns 0 idx hidx
  omega

/-- Witness for draw_instance_uploads_in_bounds on two draw calls of 2
and 3 instances. -/
theorem draw_instance_uploads_in_bounds_witness :
    [2, 3].sum ≤ MAX_INSTANCE_COUNT ∧
    ∀ idx ∈ drawSequenceIndices 0 [2, 3], idx < MAX_INSTANCE_COUNT :=
  ⟨by decide, draw_instance_uploads_in_bounds [2, 3] (by decide)⟩

/-- C2: Device::update_gpu_cache issues one partial texture update whose
region is MAX_VERTEX_TEXTURE_WIDTH wide, one row high, at y-offset equal
to the given row index, carrying exactly the given row data; applying it
leaves every texel of every other row of the resource cache texture
unchanged. -/
theorem update_gpu_cache_updates_one_row (row : Nat) (data : List Int)
    (h : data.length = MAX_VERTEX_TEXTURE_WIDTH * RGBA_STRIDE) :
    ∃ info mem, update_gpu_cache row data = some (info, mem) ∧
      info.xoffset = 0 ∧ info.yoffset = row ∧
      info.width = MAX_VERTEX_TEXTURE_WIDTH ∧ info.height = 1 ∧
      mem = data ∧
      ∀ tex r c, r ≠ row → applyTextureUpdate tex info mem r c = tex r c := by
  refine ⟨{ xoffset := 0, yoffset := row, zoffset := 0,
            width := MAX_VERTEX_TEXTURE_WIDTH, height := 1,
            depth := 0, mipmap := 0 }, data, ?_, rfl, rfl, rfl, rfl, rfl, ?_⟩
  · unfold update_gpu_cache update_gpu_texture
    rw [if_pos h]
  · intro tex r c hr
    unfold applyTextureUpdate
    rw [if_neg]
    dsimp only
    omega

/-- Witness for update_gpu_cache_updates_one_row at row 5 with a zero
row. -/
theorem update_gpu_cache_updates_one_row_witness :
    ∃ info mem,
      update_gpu_cache 5 (List.replicate 4096 (0 : Int)) = some (info, mem) ∧
      info.xoffset = 0 ∧ info.yoffset = 5 ∧
      info.width = MAX_VERTEX_TEXTURE_WIDTH ∧ info.height = 1 ∧
      mem = List.replicate 4096 (0 : Int) ∧
      ∀ tex r c, r ≠ 5 → applyTextureUpdate tex info mem r c = tex r c :=
  update_gpu_cache_updates_one_row 5 (List.replicate 4096 (0 : Int))
    (by rw [List.length_replicate]; norm_num [MAX_VERTEX_TEXTURE_WIDTH, RGBA_STRIDE])

theorem gen_range_bounds (lo hi r : Nat) (h : lo < hi) :
    lo ≤ gen_range lo hi r ∧ gen_range lo hi r < hi := by
  have hm : r % (hi - lo) < hi - lo := Nat.mod_lt _ (by omega)
  unfold gen_range
  omega

theorem generateIdLoop_of_not_mem (textures : List Nat) (c : Nat)
    (rng : List Nat) (h : c ∉ textures) :
    generateIdLoop textures c rng = some c := by
  cases rng <;> simp [generateIdLoop, h]

theorem generateIdLoop_fresh (textures : List Nat) (rng : List Nat) :
    ∀ c id, c ∈ textures → generateIdLoop textures c rng = some id →
      id ∉ textures ∧ FIRST_UNRESERVED_ID ≤ id ∧ id < u32_max_value := by
  induction rng with
  | nil => intro c id hc hl; simp [generateIdLoop, hc] at hl
  | cons r rest ih =>
      intro c id hc hl
      simp only [generateIdLoop, if_pos hc] at hl
      have hlt : FIRST_UNRESERVED_ID < u32_max_value := by decide
      have hb := gen_range_bounds FIRST_UNRESERVED_ID u32_max_value r hlt
      by_cases hc2 : gen_range FIRST_UNRESERVED_ID u32_max_value r ∈ textures
      · exact ih _ id hc2 hl
      · rw [generateIdLoop_of_not_mem textures _ rest hc2] at hl
        cases hl
        exact ⟨hc2, hb.1, hb.2⟩

/-- C10: every id Device::generate_texture_id returns is absent from the
texture table at the time of the call and lies in
[FIRST_UNRESERVED_ID, u32::max_value()), because the search starts at the
reserved invalid id 0 that the table always holds; consequently the
assert in Device::create_texture never fires and the new texture is
inserted under the fresh id. -/
theorem generate_texture_id_fresh (d : Device) (rng : List Nat) (id : Nat)
    (hinv : 0 ∈ d.textures)
    (hgen : d.generate_texture_id rng = some id) :
    id ∉ d.textures ∧ FIRST_UNRESERVED_ID ≤ id ∧ id < u32_max_value ∧
    d.create_texture rng = some (id, { d with textures := id :: d.textures }) := by
  obtain ⟨hnot, hlo, hhi⟩ :=
    generateIdLoop_fresh d.textures rng 0 id hinv hgen
  refine ⟨hnot, hlo, hhi, ?_⟩
  have hstep : d.create_texture rng =
      if id ∈ d.textures then none
      else some (id, { d with textures := id :: d.textures }) := by
    unfold Device.create_texture
    rw [hgen]
  rw [hstep, if_neg hnot]

/-- Witness for generate_texture_id_fresh on a table holding the four
reserved ids, with one rng draw. -/
theorem generate_texture_id_fresh_witness :
    15 ∉ (⟨[0, 1, 2, 3], 0, 0, 0, 0, 0⟩ : Device).textures ∧
    FIRST_UNRESERVED_ID ≤ 15 ∧ 15 < u32_max_value ∧
    (⟨[0, 1, 2, 3], 0, 0, 0, 0, 0⟩ : Device).create_texture [10] =
      some (15, { (⟨[0, 1, 2, 3], 0, 0, 0, 0, 0⟩ : Device) with
                    textures := 15 :: [0, 1, 2, 3] }) :=
  generate_texture_id_fresh ⟨[0, 1, 2, 3], 0, 0, 0, 0, 0⟩ [10] 15
    (by decide) (by decide)

theorem applyWrites_cons (p : Nat × Nat) (ws : List (Nat × Nat)) (l : List Nat) :
    applyWrites (p :: ws) l = applyWrites ws (l.set p.1 p.2) := rfl

theorem applyWrites_append (w1 w2 : List (Nat × Nat)) (l : List Nat) :
    applyWrites (w1 ++ w2) l = applyWrites w2 (applyWrites w1 l) := by
  unfold applyWrites
  rw [List.foldl_append]

theorem length_applyWrites (ws : List (Nat × Nat)) :
    ∀ l : List Nat, (applyWrites ws l).length = l.length := by
  induction ws with
  | nil => intro l; rfl
  | cons p rest ih =>
      intro l
      rw [applyWrites_cons, ih, List.length_set]

theorem getElem?_applyWrites_of_not_mem (ws : List (Nat × Nat)) :
    ∀ (l : List Nat) (idx : Nat), (∀ p ∈ ws, p.1 ≠ idx) →
      (applyWrites ws l)[idx]? = l[idx]? := by
  induction ws with
  | nil => intro l idx _; rfl
  | cons p rest ih =>
      intro l idx h
      rw [applyWrites_cons,
        ih _ idx (fun q hq => h q (List.mem_cons_of_mem _ hq)),
        List.getElem?_set_ne (h p (List.mem_cons_self _ _))]

theorem getElem?_applyWrites_of_mem (ws : List (Nat × Nat)) :
    ∀ (l : List Nat) (idx v : Nat), (idx, v) ∈ ws →
      (ws.map Prod.fst).Nodup → idx < l.length →
      (applyWrites ws l)[idx]? = some v := by
  induction ws with
  | nil => intro l idx v h; cases h
  | cons p rest ih =>
      intro l idx v hmem hnd hlen
      rw [List.map_cons, List.nodup_cons] at hnd
      rcases List.mem_cons.mp hmem with heq | hmem2
      · subst heq
        rw [applyWrites_cons]
        have hrest : ∀ q ∈ rest, q.1 ≠ idx := by
          intro q hq habs
          have h3 : q.1 ∈ rest.map Prod.fst := List.mem_map_of_mem Prod.fst hq
          rw [habs] at h3
          exact hnd.1 h3
        rw [getElem?_applyWrites_of_not_mem rest _ idx hrest]
        exact List.getElem?_set_self hlen
      · rw [applyWrites_cons]
        exact ih _ idx v hmem2 hnd.2 (by rw [List.length_set]; exact hlen)

theorem foldl_applyWrites_flatMap {α : Type} (f : α → List (Nat × Nat))
    (xs : List α) :
    ∀ l : List Nat,
      xs.foldl (fun acc x => applyWrites (f x) acc) l =
        applyWrites (xs.flatMap f) l := by
  induction xs with
  | nil => intro l; rfl
  | cons x rest ih =>
      intro l
      rw [List.foldl_cons, ih, List.flatMap_cons, applyWrites_append]

theorem grid_index_inj (w j i j2 i2 : Nat) (hi : i < w) (hi2 : i2 < w)
    (h : j * w + i = j2 * w + i2) : j = j2 ∧ i = i2 := by
  rcases Nat.lt_trichotomy j j2 with hlt | heq | hgt
  · exfalso
    have h1 : j * w + i < (j + 1) * w := by rw [Nat.succ_mul]; omega
    have h2 : (j + 1) * w ≤ j2 * w := Nat.mul_le_mul_right w hlt
    omega
  · subst heq
    omega
  · exfalso
    have h1 : j2 * w + i2 < (j2 + 1) * w := by rw [Nat.succ_mul]; omega
    have h2 : (j2 + 1) * w ≤ j * w := Nat.mul_le_mul_right w hgt
    omega

theorem grid_index_lt (wdt hgt j i : Nat) (hj : j < hgt) (hi : i < wdt) :
    j * wdt + i < hgt * wdt := by
  have h1 : j * wdt + i < (j + 1) * wdt := by rw [Nat.succ_mul]; omega
  have h2 : (j + 1) * wdt ≤ hgt * wdt := Nat.mul_le_mul_right wdt hj
  omega

theorem pixel_index_inj (width j i k j2 i2 k2 : Nat)
    (hi : i < width) (hi2 : i2 < width) (hk : k < 4) (hk2 : k2 < 4)
    (h : i * 4 + j * width * 4 + k = i2 * 4 + j2 * width * 4 + k2) :
    j = j2 ∧ i = i2 ∧ k = k2 := by
  have key : j * (width * 4) + (i * 4 + k) = j2 * (width * 4) + (i2 * 4 + k2) := by
    rw [← Nat.mul_assoc, ← Nat.mul_assoc]
    omega
  have h2 := grid_index_inj (width * 4) j (i * 4 + k) j2 (i2 * 4 + k2)
    (by omega) (by omega) key
  exact ⟨h2.1, by omega, by omega⟩

theorem eq_of_mem_fst_pixelWrites (w ox oy width : Nat) (data : List Nat)
    (j i a : Nat)
    (ha : a ∈ (pixelWrites w ox oy width data j i).map Prod.fst) :
    ∃ k, k < 4 ∧ a = i * 4 + j * width * 4 + k := by
  simp only [pixelWrites, RGBA_STRIDE, List.map_cons, List.map_nil,
    List.mem_cons, List.not_mem_nil, or_false] at ha
  rcases ha with rfl | rfl | rfl | rfl
  · exact ⟨0, by omega, by omega⟩
  · exact ⟨1, by omega, by omega⟩
  · exact ⟨2, by omega, by omega⟩
  · exact ⟨3, by omega, by omega⟩

theorem mem_pixelWrites (w ox oy width : Nat) (data : List Nat)
    (j i k : Nat) (hk : k < 4) :
    (i * RGBA_STRIDE + j * width * RGBA_STRIDE + k,
      data.getD ((j + oy) * w * RGBA_STRIDE + (i + ox) * RGBA_STRIDE + k) 0)
      ∈ pixelWrites w ox oy width data j i := by
  unfold pixelWrites
  interval_cases k <;> simp

theorem nodup_fst_pixelWrites (w ox oy width : Nat) (data : List Nat)
    (j i : Nat) :
    ((pixelWrites w ox oy width data j i).map Prod.fst).Nodup := by
  simp [pixelWrites, RGBA_STRIDE]

theorem nodup_fst_readPixelsWriteList (w ox oy width height : Nat)
    (data : List Nat) :
    ((readPixelsWriteList w ox oy width height data).map Prod.fst).Nodup := by
  unfold readPixelsWriteList
  rw [List.map_flatMap, List.nodup_flatMap]
  constructor
  · intro j _
    rw [List.map_flatMap, List.nodup_flatMap]
    constructor
    · intro i _
      exact nodup_fst_pixelWrites w ox oy width data j i
    · apply List.Pairwise.imp ?_ (List.pairwise_lt_range width)
      intro i i2 hlt a ha ha2
      obtain ⟨k, hk, rfl⟩ := eq_of_mem_fst_pixelWrites w ox oy width data j i a ha
      obtain ⟨k2, hk2, heq⟩ := eq_of_mem_fst_pixelWrites w ox oy width data j i2 _ ha2
      omega
  · apply List.Pairwise.imp ?_ (List.pairwise_lt_range height)
    intro j j2 hlt a ha ha2
    simp only [List.map_flatMap, List.mem_flatMap] at ha ha2
    obtain ⟨i, hi, ha⟩ := ha
    obtain ⟨i2, hi2, ha2⟩ := ha2
    rw [List.mem_range] at hi hi2
    obtain ⟨k, hk, rfl⟩ := eq_of_mem_fst_pixelWrites w ox oy width data j i a ha
    obtain ⟨k2, hk2, heq⟩ := eq_of_mem_fst_pixelWrites w ox oy width data j2 i2 _ ha2
    have := pixel_index_inj width j i k j2 i2 k2 hi hi2 hk hk2 heq
    omega

theorem fst_readPixelsWriteList_lt (w ox oy width height : Nat)
    (data : List Nat) (p : Nat × Nat)
    (hp : p ∈ readPixelsWriteList w ox oy width height data) :
    p.1 < width * height * RGBA_STRIDE := by
  unfold readPixelsWriteList at hp
  rw [List.mem_flatMap] at hp
  obtain ⟨j, hj, hp⟩ := hp
  rw [List.mem_flatMap] at hp
  obtain ⟨i, hi, hp⟩ := hp
  rw [List.mem_range] at hj hi
  have hfst := eq_of_mem_fst_pixelWrites w ox oy width data j i p.1
    (List.mem_map_of_mem Prod.fst hp)
  obtain ⟨k, hk, hform⟩ := hfst
  have hgrid : j * width + i < height * width := grid_index_lt width height j i hj hi
  have hcomm : width * height = height * width := Nat.mul_comm width height
  simp only [RGBA_STRIDE]
  omega

theorem read_pixels_eq_applyWrites (w ox oy width height : Nat)
    (data output : List Nat) :
    Device.read_pixels w ox oy width height data output =
      applyWrites (readPixelsWriteList w ox oy width height data) output := by
  unfold Device.read_pixels readPixelsWriteList
  rw [List.foldl_ext
    (fun out j =>
      (List.range width).foldl
        (fun out2 i => applyWrites (pixelWrites w ox oy width data j i) out2) out)
    (fun out j =>
      applyWrites
        ((List.range width).flatMap (fun i => pixelWrites w ox oy width data j i)) out)
    output
    (fun out j _ => foldl_applyWrites_flatMap _ _ out)]
  exact foldl_applyWrites_flatMap _ _ output

/-- C4: Device::read_pixels copies exactly the requested sub-rectangle of
the framebuffer readback into the output buffer: byte k of output pixel
(i, j) equals byte k of the framebuffer pixel at column origin.x + i,
row origin.y + j, the output length is unchanged, and every output byte
at an index at or beyond width * height * 4 is untouched. -/
theorem read_pixels_returns_subrect (w h ox oy width height : Nat)
    (data output : List Nat)
    (hdata : data.length = w * h * RGBA_STRIDE)
    (hx : ox + width ≤ w) (hy : oy + height ≤ h)
    (hout : width * height * RGBA_STRIDE ≤ output.length) :
    (Device.read_pixels w ox oy width height data output).length = output.length ∧
    (∀ j i k, j < height → i < width → k < RGBA_STRIDE →
      (Device.read_pixels w ox oy width height data output).getD
          ((j * width + i) * RGBA_STRIDE + k) 0 =
        data.getD (((j + oy) * w + (i + ox)) * RGBA_STRIDE + k) 0) ∧
    (∀ idx, width * height * RGBA_STRIDE ≤ idx →
      (Device.read_pixels w ox oy width height data output).getD idx 0 =
        output.getD idx 0) := by
  rw [read_pixels_eq_applyWrites]
  refine ⟨length_applyWrites _ output, ?_, ?_⟩
  · intro j i k hj hi hk
    have hk4 : k < 4 := by simpa [RGBA_STRIDE] using hk
    have hidx : (j * width + i) * RGBA_STRIDE + k =
        i * RGBA_STRIDE + j * width * RGBA_STRIDE + k := by
      simp only [RGBA_STRIDE]
      omega
    have harg : ((j + oy) * w + (i + ox)) * RGBA_STRIDE + k =
        (j + oy) * w * RGBA_STRIDE + (i + ox) * RGBA_STRIDE + k := by
      simp only [RGBA_STRIDE]
      omega
    rw [hidx, harg, List.getD_eq_getElem?_getD]
    have hmem : (i * RGBA_STRIDE + j * width * RGBA_STRIDE + k,
        (data.getD ((j + oy) * w * RGBA_STRIDE + (i + ox) * RGBA_STRIDE + k) 0 : Nat))
        ∈ readPixelsWriteList w ox oy width height data := by
      unfold readPixelsWriteList
      rw [List.mem_flatMap]
      refine ⟨j, List.mem_range.mpr hj, ?_⟩
      rw [List.mem_flatMap]
      exact ⟨i, List.mem_range.mpr hi,
        mem_pixelWrites w ox oy width data j i k hk4⟩
    have hlen : i * RGBA_STRIDE + j * width * RGBA_STRIDE + k < output.length := by
      have hgrid : j * width + i < height * width :=
        grid_index_lt width height j i hj hi
      have hcomm : width * height = height * width := Nat.mul_comm width height
      simp only [RGBA_STRIDE] at hout ⊢
      omega
    rw [getElem?_applyWrites_of_mem _ _ _ _ hmem
      (nodup_fst_readPixelsWriteList w ox oy width height data) hlen]
    rfl
  · intro idx hidx
    rw [List.getD_eq_getElem?_getD, List.getD_eq_getElem?_getD,
      getElem?_applyWrites_of_not_mem]
    intro p hp
    have := fst_readPixelsWriteList_lt w ox oy width height data p hp
    omega

/-- Witness for read_pixels_returns_subrect on a 2 x 2 framebuffer and
the 1 x 1 rect at origin (1, 1). -/
theorem read_pixels_returns_subrect_witness :
    (Device.read_pixels 2 1 1 1 1 (List.range 16) [9, 9, 9, 9]).length =
        [9, 9, 9, 9].length ∧
    (∀ j i k, j < 1 → i < 1 → k < RGBA_STRIDE →
      (Device.read_pixels 2 1 1 1 1 (List.range 16) [9, 9, 9, 9]).getD
          ((j * 1 + i) * RGBA_STRIDE + k) 0 =
        (List.range 16).getD (((j + 1) * 2 + (i + 1)) * RGBA_STRIDE + k) 0) ∧
    (∀ idx, 1 * 1 * RGBA_STRIDE ≤ idx →
      (Device.read_pixels 2 1 1 1 1 (List.range 16) [9, 9, 9, 9]).getD idx 0 =
        [9, 9, 9, 9].getD idx 0) :=
  read_pixels_returns_subrect 2 2 1 1 1 1 (List.range 16) [9, 9, 9, 9]
    (by decide) (by decide) (by decide) (by decide)

theorem foldl_set_map {α : Type} (g : α → Nat × Nat) (xs : List α) :
    ∀ l : List Nat,
      xs.foldl (fun acc x => acc.set (g x).1 (g x).2) l =
        applyWrites (xs.map g) l := by
  induction xs with
  | nil => intro l; rfl
  | cons x rest ih =>
      intro l
      rw [List.foldl_cons, ih, List.map_cons, applyWrites_cons]

theorem stride_index_inj (width s i j s2 i2 j2 : Nat)
    (hs : s < 4) (hs2 : s2 < 4) (hi : i < width) (hi2 : i2 < width)
    (h : s + i * 4 + j * width * 4 = s2 + i2 * 4 + j2 * width * 4) :
    s = s2 ∧ i = i2 ∧ j = j2 := by
  have key : j * (width * 4) + (s + i * 4) = j2 * (width * 4) + (s2 + i2 * 4) := by
    rw [← Nat.mul_assoc, ← Nat.mul_assoc]
    omega
  have h2 := grid_index_inj (width * 4) j (s + i * 4) j2 (s2 + i2 * 4)
    (by omega) (by omega) key
  exact ⟨by omega, by omega, h2.1⟩

theorem convert_rgba8_eq_applyWrites (width height : Nat) (data : List Nat)
    (orig_stride : Nat) :
    convert_data_to_rgba8 width height data orig_stride =
      applyWrites (rgba8WriteList width height data orig_stride)
        (List.replicate (width * height * RGBA_STRIDE) 0) := by
  unfold convert_data_to_rgba8 rgba8WriteList
  trans ((List.range orig_stride).foldl
    (fun nd s => applyWrites
      ((List.range height).flatMap (fun h2 =>
        (List.range width).map (fun w2 =>
          (s + w2 * RGBA_STRIDE + h2 * width * RGBA_STRIDE,
           data.getD (s + w2 * orig_stride + h2 * width * orig_stride) 0)))) nd)
    (List.replicate (width * height * RGBA_STRIDE) 0))
  · apply List.foldl_ext
    intro nd s _
    trans ((List.range height).foldl
      (fun nd2 h2 => applyWrites
        ((List.range width).map (fun w2 =>
          (s + w2 * RGBA_STRIDE + h2 * width * RGBA_STRIDE,
           data.getD (s + w2 * orig_stride + h2 * width * orig_stride) 0))) nd2)
      nd)
    · apply List.foldl_ext
      intro nd2 h2 _
      exact foldl_set_map
        (fun w2 =>
          (s + w2 * RGBA_STRIDE + h2 * width * RGBA_STRIDE,
           data.getD (s + w2 * orig_stride + h2 * width * orig_stride) 0))
        (List.range width) nd2
    · exact foldl_applyWrites_flatMap _ _ nd
  · exact foldl_applyWrites_flatMap _ _ _

theorem mem_rgba8WriteList (width height : Nat) (data : List Nat)
    (orig_stride s h2 w2 : Nat)
    (hs : s < orig_stride) (hh : h2 < height) (hw : w2 < width) :
    (s + w2 * RGBA_STRIDE + h2 * width * RGBA_STRIDE,
     (data.getD (s + w2 * orig_stride + h2 * width * orig_stride) 0 : Nat))
      ∈ rgba8WriteList width height data orig_stride := by
  unfold rgba8WriteList
  rw [List.mem_flatMap]
  refine ⟨s, List.mem_range.mpr hs, ?_⟩
  rw [List.mem_flatMap]
  exact ⟨h2, List.mem_range.mpr hh,
    List.mem_map_of_mem _ (List.mem_range.mpr hw)⟩

theorem eq_of_mem_fst_rgba8 (width height : Nat) (data : List Nat)
    (orig_stride a : Nat)
    (ha : a ∈ (rgba8WriteList width height data orig_stride).map Prod.fst) :
    ∃ s h2 w2, s < orig_stride ∧ h2 < height ∧ w2 < width ∧
      a = s + w2 * RGBA_STRIDE + h2 * width * RGBA_STRIDE := by
  unfold rgba8WriteList at ha
  simp only [List.map_flatMap, List.map_map, List.mem_flatMap, List.mem_map,
    List.mem_range, Function.comp] at ha
  obtain ⟨s, hs, h2, hh, w2, hw, heq⟩ := ha
  exact ⟨s, h2, w2, hs, hh, hw, heq.symm⟩

theorem nodup_fst_rgba8WriteList (width height : Nat) (data : List Nat)
    (orig_stride : Nat) (hstr : orig_stride ≤ 4) :
    ((rgba8WriteList width height data orig_stride).map Prod.fst).Nodup := by
  unfold rgba8WriteList
  rw [List.map_flatMap, List.nodup_flatMap]
  constructor
  · intro s hs
    rw [List.mem_range] at hs
    rw [List.map_flatMap, List.nodup_flatMap]
    constructor
    · intro h2 _
      rw [List.map_map]
      refine List.Nodup.map_on ?_ (List.nodup_range width)
      intro x _ y _ hxy
      simp only [Function.comp, RGBA_STRIDE] at hxy
      omega
    · apply List.Pairwise.imp ?_ (List.pairwise_lt_range height)
      intro h2 h2c hlt a ha ha2
      simp only [List.map_map, List.mem_map, List.mem_range, Function.comp]
        at ha ha2
      obtain ⟨w2, hw, heq⟩ := ha
      obtain ⟨w2c, hwc, heqc⟩ := ha2
      have hcomb : s + w2 * 4 + h2 * width * 4 = s + w2c * 4 + h2c * width * 4 := by
        simp only [RGBA_STRIDE] at heq heqc
        omega
      have hinj := stride_index_inj width s w2 h2 s w2c h2c
        (by omega) (by omega) hw hwc hcomb
      omega
  · apply List.Pairwise.imp_of_mem ?_ (List.pairwise_lt_range orig_stride)
    intro s s2 hsm hs2m hlt a ha ha2
    rw [List.mem_range] at hsm hs2m
    simp only [List.map_flatMap, List.mem_flatMap, List.map_map, List.mem_map,
      List.mem_range, Function.comp] at ha ha2
    obtain ⟨h2, hh, w2, hw, heq⟩ := ha
    obtain ⟨h2c, hhc, w2c, hwc, heqc⟩ := ha2
    have hcomb : s + w2 * 4 + h2 * width * 4 = s2 + w2c * 4 + h2c * width * 4 := by
      simp only [RGBA_STRIDE] at heq heqc
      omega
    have hinj := stride_index_inj width s w2 h2 s2 w2c h2c
      (by omega) (by omega) hw hwc hcomb
    omega

theorem fst_rgba8WriteList_lt (width height : Nat) (data : List Nat)
    (orig_stride : Nat) (hstr : orig_stride ≤ 4) (p : Nat × Nat)
    (hp : p ∈ rgba8WriteList width height data orig_stride) :
    p.1 < width * height * RGBA_STRIDE := by
  have hform := eq_of_mem_fst_rgba8 width height data orig_stride p.1
    (List.mem_map_of_mem Prod.fst hp)
  obtain ⟨s, h2, w2, hs, hh, hw, heq⟩ := hform
  have hgrid : h2 * width + w2 < height * width :=
    grid_index_lt width height h2 w2 hh hw
  have hcomm : width * height = height * width := Nat.mul_comm width height
  simp only [RGBA_STRIDE] at heq ⊢
  omega

theorem convert_rgba8_getD (width height : Nat) (data : List Nat)
    (orig_stride : Nat) (h4 : orig_stride ≤ 4)
    (j i c : Nat) (hj : j < height) (hi : i < width) (hc : c < RGBA_STRIDE) :
    (convert_data_to_rgba8 width height data orig_stride).getD
        ((j * width + i) * RGBA_STRIDE + c) 0 =
      if c < orig_stride then
        data.getD ((j * width + i) * orig_stride + c) 0
      else 0 := by
  have hc4 : c < 4 := by simpa [RGBA_STRIDE] using hc
  have hidx : (j * width + i) * RGBA_STRIDE + c =
      c + i * RGBA_STRIDE + j * width * RGBA_STRIDE := by
    simp only [RGBA_STRIDE]
    ring
  have hgrid : j * width + i < height * width := grid_index_lt width height j i hj hi
  have hcomm : width * height = height * width := Nat.mul_comm width height
  rw [convert_rgba8_eq_applyWrites, hidx, List.getD_eq_getElem?_getD]
  by_cases hcs : c < orig_stride
  · rw [if_pos hcs]
    have harg : (j * width + i) * orig_stride + c =
        c + i * orig_stride + j * width * orig_stride := by ring
    rw [harg]
    have hlen : c + i * RGBA_STRIDE + j * width * RGBA_STRIDE <
        (List.replicate (width * height * RGBA_STRIDE) (0 : Nat)).length := by
      rw [List.length_replicate]
      simp only [RGBA_STRIDE]
      omega
    rw [getElem?_applyWrites_of_mem _ _ _ _
      (mem_rgba8WriteList width height data orig_stride c j i hcs hj hi)
      (nodup_fst_rgba8WriteList width height data orig_stride h4) hlen]
    rfl
  · rw [if_neg hcs]
    rw [getElem?_applyWrites_of_not_mem]
    · rw [List.getElem?_replicate]
      split <;> rfl
    · intro p hp habs
      have hform := eq_of_mem_fst_rgba8 width height data orig_stride p.1
        (List.mem_map_of_mem Prod.fst hp)
      obtain ⟨s, h2, w2, hs, hh, hw, heq⟩ := hform
      rw [habs] at heq
      simp only [RGBA_STRIDE] at heq
      have := stride_index_inj width s w2 h2 c i j (by omega) hc4 hw hi heq.symm
      omega

theorem getD_take_of_lt (l : List Nat) (n idx : Nat) (h : idx < n) :
    (l.take n).getD idx 0 = l.getD idx 0 := by
  rw [List.getD_eq_getElem?_getD, List.getD_eq_getElem?_getD,
    List.getElem?_take, if_pos h]

theorem eq_of_mem_fst_bgraPixelWrites (width data_pitch : Nat)
    (data : List Nat) (j i a : Nat)
    (ha : a ∈ (bgraPixelWrites width data_pitch data j i).map Prod.fst) :
    ∃ k, k < 4 ∧ a = i * 4 + j * width * 4 + k := by
  simp only [bgraPixelWrites, RGBA_STRIDE, List.map_cons, List.map_nil,
    List.mem_cons, List.not_mem_nil, or_false] at ha
  rcases ha with rfl | rfl | rfl | rfl
  · exact ⟨0, by omega, by ring⟩
  · exact ⟨1, by omega, by ring⟩
  · exact ⟨2, by omega, by ring⟩
  · exact ⟨3, by omega, by ring⟩

theorem nodup_fst_bgraPixelWrites (width data_pitch : Nat) (data : List Nat)
    (j i : Nat) :
    ((bgraPixelWrites width data_pitch data j i).map Prod.fst).Nodup := by
  simp [bgraPixelWrites, RGBA_STRIDE]

theorem nodup_fst_bgraWriteList (width height data_pitch : Nat)
    (data : List Nat) :
    ((bgraWriteList width height data_pitch data).map Prod.fst).Nodup := by
  unfold bgraWriteList
  rw [List.map_flatMap, List.nodup_flatMap]
  constructor
  · intro j _
    rw [List.map_flatMap, List.nodup_flatMap]
    constructor
    · intro i _
      exact nodup_fst_bgraPixelWrites width data_pitch data j i
    · apply List.Pairwise.imp ?_ (List.pairwise_lt_range width)
      intro i i2 hlt a ha ha2
      obtain ⟨k, hk, rfl⟩ :=
        eq_of_mem_fst_bgraPixelWrites width data_pitch data j i a ha
      obtain ⟨k2, hk2, heq⟩ :=
        eq_of_mem_fst_bgraPixelWrites width data_pitch data j i2 _ ha2
      omega
  · apply List.Pairwise.imp ?_ (List.pairwise_lt_range height)
    intro j j2 hlt a ha ha2
    simp only [List.map_flatMap, List.mem_flatMap] at ha ha2
    obtain ⟨i, hi, ha⟩ := ha
    obtain ⟨i2, hi2, ha2⟩ := ha2
    rw [List.mem_range] at hi hi2
    obtain ⟨k, hk, rfl⟩ :=
      eq_of_mem_fst_bgraPixelWrites width data_pitch data j i a ha
    obtain ⟨k2, hk2, heq⟩ :=
      eq_of_mem_fst_bgraPixelWrites width data_pitch data j2 i2 _ ha2
    have := pixel_index_inj width j i k j2 i2 k2 hi hi2 hk hk2 heq
    omega

theorem convert_bgra8_eq_applyWrites (width height data_pitch : Nat)
    (data : List Nat) :
    convert_data_to_bgra8 width height data_pitch data =
      applyWrites (bgraWriteList width height data_pitch data)
        (List.replicate (width * height * RGBA_STRIDE) 0) := by
  unfold convert_data_to_bgra8 bgraWriteList
  rw [List.foldl_ext
    (fun nd j =>
      (List.range width).foldl
        (fun nd2 i => applyWrites (bgraPixelWrites width data_pitch data j i) nd2) nd)
    (fun nd j =>
      applyWrites
        ((List.range width).flatMap (fun i => bgraPixelWrites width data_pitch data j i)) nd)
    (List.replicate (width * height * RGBA_STRIDE) 0)
    (fun nd j _ => foldl_applyWrites_flatMap _ _ nd)]
  exact foldl_applyWrites_flatMap _ _ _

theorem mem_bgraWriteList (width height data_pitch : Nat) (data : List Nat)
    (j i : Nat) (hj : j < height) (hi : i < width) (p : Nat × Nat)
    (hp : p ∈ bgraPixelWrites width data_pitch data j i) :
    p ∈ bgraWriteList width height data_pitch data := by
  unfold bgraWriteList
  rw [List.mem_flatMap]
  refine ⟨j, List.mem_range.mpr hj, ?_⟩
  rw [List.mem_flatMap]
  exact ⟨i, List.mem_range.mpr hi, hp⟩

theorem convert_bgra8_getD (width height data_pitch : Nat) (data : List Nat)
    (j i : Nat) (hj : j < height) (hi : i < width) :
    (convert_data_to_bgra8 width height data_pitch data).getD
        ((j * width + i) * RGBA_STRIDE) 0 =
      data.getD (j * data_pitch + i * RGBA_STRIDE + 2) 0 ∧
    (convert_data_to_bgra8 width height data_pitch data).getD
        ((j * width + i) * RGBA_STRIDE + 1) 0 =
      data.getD (j * data_pitch + i * RGBA_STRIDE + 1) 0 ∧
    (convert_data_to_bgra8 width height data_pitch data).getD
        ((j * width + i) * RGBA_STRIDE + 2) 0 =
      data.getD (j * data_pitch + i * RGBA_STRIDE) 0 ∧
    (convert_data_to_bgra8 width height data_pitch data).getD
        ((j * width + i) * RGBA_STRIDE + 3) 0 =
      data.getD (j * data_pitch + i * RGBA_STRIDE + 3) 0 := by
  have hgrid : j * width + i < height * width := grid_index_lt width height j i hj hi
  have hcomm : width * height = height * width := Nat.mul_comm width height
  have hassoc : j * RGBA_STRIDE * width = j * width * RGBA_STRIDE := by ring
  have hnd := nodup_fst_bgraWriteList width height data_pitch data
  have hlen : ∀ k, k < 4 →
      i * RGBA_STRIDE + j * RGBA_STRIDE * width + k <
        (List.replicate (width * height * RGBA_STRIDE) (0 : Nat)).length := by
    intro k hk
    rw [List.length_replicate]
    simp only [RGBA_STRIDE] at hassoc ⊢
    omega
  refine ⟨?_, ?_, ?_, ?_⟩
  · have e0 : (j * width + i) * RGBA_STRIDE =
        i * RGBA_STRIDE + j * RGBA_STRIDE * width := by ring
    have hmem0 : ((i * RGBA_STRIDE + j * RGBA_STRIDE * width : Nat),
        (data.getD (j * data_pitch + i * RGBA_STRIDE + 2) 0 : Nat))
        ∈ bgraWriteList width height data_pitch data :=
      mem_bgraWriteList width height data_pitch data j i hj hi _
        (by simp [bgraPixelWrites])
    rw [convert_bgra8_eq_applyWrites, e0, List.getD_eq_getElem?_getD,
      getElem?_applyWrites_of_mem _ _ _ _ hmem0 hnd
        (by have h0 := hlen 0 (by omega); omega)]
    rfl
  · have e1 : (j * width + i) * RGBA_STRIDE + 1 =
        i * RGBA_STRIDE + j * RGBA_STRIDE * width + 1 := by ring
    have hmem1 : ((i * RGBA_STRIDE + j * RGBA_STRIDE * width + 1 : Nat),
        (data.getD (j * data_pitch + i * RGBA_STRIDE + 1) 0 : Nat))
        ∈ bgraWriteList width height data_pitch data :=
      mem_bgraWriteList width height data_pitch data j i hj hi _
        (by simp [bgraPixelWrites])
    rw [convert_bgra8_eq_applyWrites, e1, List.getD_eq_getElem?_getD,
      getElem?_applyWrites_of_mem _ _ _ _ hmem1 hnd (hlen 1 (by omega))]
    rfl
  · have e2 : (j * width + i) * RGBA_STRIDE + 2 =
        i * RGBA_STRIDE + j * RGBA_STRIDE * width + 2 := by ring
    have hmem2 : ((i * RGBA_STRIDE + j * RGBA_STRIDE * width + 2 : Nat),
        (data.getD (j * data_pitch + i * RGBA_STRIDE) 0 : Nat))
        ∈ bgraWriteList width height data_pitch data :=
      mem_bgraWriteList width height data_pitch data j i hj hi _
        (by simp [bgraPixelWrites])
    rw [convert_bgra8_eq_applyWrites, e2, List.getD_eq_getElem?_getD,
      getElem?_applyWrites_of_mem _ _ _ _ hmem2 hnd (hlen 2 (by omega))]
    rfl
  · have e3 : (j * width + i) * RGBA_STRIDE + 3 =
        i * RGBA_STRIDE + j * RGBA_STRIDE * width + 3 := by ring
    have hmem3 : ((i * RGBA_STRIDE + j * RGBA_STRIDE * width + 3 : Nat),
        (data.getD (j * data_pitch + i * RGBA_STRIDE + 3) 0 : Nat))
        ∈ bgraWriteList width height data_pitch data :=
      mem_bgraWriteList width height data_pitch data j i hj hi _
        (by simp [bgraPixelWrites])
    rw [convert_bgra8_eq_applyWrites, e3, List.getD_eq_getElem?_getD,
      getElem?_applyWrites_of_mem _ _ _ _ hmem3 hnd (hlen 3 (by omega))]
    rfl

/-- C9: Device::update_texture returns untouched when pixels is None; for
A8 / RG8 / RGB8 it issues an update whose RGBA8 data carries the s source
channels of every pixel (s = 1, 2, 3) and zeroes in the remaining
channels; for BGRA8 it swaps bytes 0 and 2 of every pixel, reading each
source row at the given stride (defaulting to width * 4), which by the
length computation is taken into account for all rows except the last. -/
theorem update_texture_pixel_conversion (d : Device)
    (texture_id x0 y0 width height : Nat) (stride : Option Nat)
    (px : List Nat) (hmem : texture_id ∈ d.textures) :
    (∀ format, d.update_texture texture_id x0 y0 width height format stride none =
        TexUpdateResult.noChange) ∧
    (d.update_texture texture_id x0 y0 width height ImageFormat.A8 stride
        (some px) =
      TexUpdateResult.updated x0 y0 width height
        (convert_data_to_rgba8 width height px A_STRIDE)) ∧
    (d.update_texture texture_id x0 y0 width height ImageFormat.RG8 stride
        (some px) =
      TexUpdateResult.updated x0 y0 width height
        (convert_data_to_rgba8 width height px RG_STRIDE)) ∧
    (d.update_texture texture_id x0 y0 width height ImageFormat.RGB8 stride
        (some px) =
      TexUpdateResult.updated x0 y0 width height
        (convert_data_to_rgba8 width height px RGB_STRIDE)) ∧
    (∀ s, s ≤ 4 → ∀ j i c, j < height → i < width → c < RGBA_STRIDE →
      (convert_data_to_rgba8 width height px s).getD
          ((j * width + i) * RGBA_STRIDE + c) 0 =
        if c < s then px.getD ((j * width + i) * s + c) 0 else 0) ∧
    (∀ data_pitch len,
      data_pitch =
        (match stride with
         | some value => value / RGBA_STRIDE
         | none => width) * RGBA_STRIDE →
      len = data_pitch * (height - 1) + width * RGBA_STRIDE →
      len ≤ px.length →
      (d.update_texture texture_id x0 y0 width height ImageFormat.BGRA8 stride
          (some px) =
        TexUpdateResult.updated x0 y0 width height
          (convert_data_to_bgra8 width height data_pitch (px.take len))) ∧
      ∀ j i, j < height → i < width →
        ((convert_data_to_bgra8 width height data_pitch (px.take len)).getD
             ((j * width + i) * RGBA_STRIDE) 0 =
           px.getD (j * data_pitch + i * RGBA_STRIDE + 2) 0 ∧
         (convert_data_to_bgra8 width height data_pitch (px.take len)).getD
             ((j * width + i) * RGBA_STRIDE + 1) 0 =
           px.getD (j * data_pitch + i * RGBA_STRIDE + 1) 0 ∧
         (convert_data_to_bgra8 width height data_pitch (px.take len)).getD
             ((j * width + i) * RGBA_STRIDE + 2) 0 =
           px.getD (j * data_pitch + i * RGBA_STRIDE) 0 ∧
         (convert_data_to_bgra8 width height data_pitch (px.take len)).getD
             ((j * width + i) * RGBA_STRIDE + 3) 0 =
           px.getD (j * data_pitch + i * RGBA_STRIDE + 3) 0)) := by
  refine ⟨fun format => rfl, ?_, ?_, ?_, ?_, ?_⟩
  · show (if texture_id ∈ d.textures then _ else _) = _
    rw [if_pos hmem]
  · show (if texture_id ∈ d.textures then _ else _) = _
    rw [if_pos hmem]
  · show (if texture_id ∈ d.textures then _ else _) = _
    rw [if_pos hmem]
  · intro s hs4 j i c hj hi hc
    exact convert_rgba8_getD width height px s hs4 j i c hj hi hc
  · intro data_pitch len hdp hlen hle
    constructor
    · cases stride with
      | none =>
          subst hdp
          subst hlen
          show (if texture_id ∈ d.textures then _ else _) = _
          rw [if_pos hmem]
          show (if width * RGBA_STRIDE * (height - 1) + width * RGBA_STRIDE ≤
              px.length then _ else _) = _
          rw [if_pos (show width * RGBA_STRIDE * (height - 1) +
            width * RGBA_STRIDE ≤ px.length from hle)]
      | some sv =>
          subst hdp
          subst hlen
          show (if texture_id ∈ d.textures then _ else _) = _
          rw [if_pos hmem]
          show (if sv / RGBA_STRIDE * RGBA_STRIDE * (height - 1) +
              width * RGBA_STRIDE ≤ px.length then _ else _) = _
          rw [if_pos (show sv / RGBA_STRIDE * RGBA_STRIDE * (height - 1) +
            width * RGBA_STRIDE ≤ px.length from hle)]
    · intro j i hj hi
      obtain ⟨c0, c1, c2, c3⟩ :=
        convert_bgra8_getD width height data_pitch (px.take len) j i hj hi
      have hb : ∀ k, k < 4 → j * data_pitch + i * RGBA_STRIDE + k < len := by
        intro k hk
        have hjm : j * data_pitch ≤ (height - 1) * data_pitch :=
          Nat.mul_le_mul_right data_pitch (by omega)
        have hhm : (height - 1) * data_pitch = data_pitch * (height - 1) :=
          Nat.mul_comm _ _
        simp only [RGBA_STRIDE] at hlen ⊢
        omega
      refine ⟨?_, ?_, ?_, ?_⟩
      · rw [c0, getD_take_of_lt px len _ (by have := hb 2 (by omega); omega)]
      · rw [c1, getD_take_of_lt px len _ (hb 1 (by omega))]
      · rw [c2, getD_take_of_lt px len _ (by have := hb 0 (by omega); omega)]
      · rw [c3, getD_take_of_lt px len _ (hb 3 (by omega))]

/-- Witness for update_texture_pixel_conversion on a table holding
texture 7, a 1 x 1 texture, default stride. -/
theorem update_texture_pixel_conversion_witness :
    (∀ format, (⟨[7], 0, 0, 0, 0, 0⟩ : Device).update_texture 7 0 0 1 1 format
        none none = TexUpdateResult.noChange) ∧
    ((⟨[7], 0, 0, 0, 0, 0⟩ : Device).update_texture 7 0 0 1 1 ImageFormat.A8
        none (some [10, 20, 30, 40]) =
      TexUpdateResult.updated 0 0 1 1
        (convert_data_to_rgba8 1 1 [10, 20, 30, 40] A_STRIDE)) ∧
    ((⟨[7], 0, 0, 0, 0, 0⟩ : Device).update_texture 7 0 0 1 1 ImageFormat.RG8
        none (some [10, 20, 30, 40]) =
      TexUpdateResult.updated 0 0 1 1
        (convert_data_to_rgba8 1 1 [10, 20, 30, 40] RG_STRIDE)) ∧
    ((⟨[7], 0, 0, 0, 0, 0⟩ : Device).update_texture 7 0 0 1 1 ImageFormat.RGB8
        none (some [10, 20, 30, 40]) =
      TexUpdateResult.updated 0 0 1 1
        (convert_data_to_rgba8 1 1 [10, 20, 30, 40] RGB_STRIDE)) ∧
    (∀ s, s ≤ 4 → ∀ j i c, j < 1 → i < 1 → c < RGBA_STRIDE →
      (convert_data_to_rgba8 1 1 [10, 20, 30, 40] s).getD
          ((j * 1 + i) * RGBA_STRIDE + c) 0 =
        if c < s then [10, 20, 30, 40].getD ((j * 1 + i) * s + c) 0 else 0) ∧
    (∀ data_pitch len,
      data_pitch =
        (match (none : Option Nat) with
         | some value => value / RGBA_STRIDE
         | none => 1) * RGBA_STRIDE →
      len = data_pitch * (1 - 1) + 1 * RGBA_STRIDE →
      len ≤ [10, 20, 30, 40].length →
      ((⟨[7], 0, 0, 0, 0, 0⟩ : Device).update_texture 7 0 0 1 1
          ImageFormat.BGRA8 none (some [10, 20, 30, 40]) =
        TexUpdateResult.updated 0 0 1 1
          (convert_data_to_bgra8 1 1 data_pitch ([10, 20, 30, 40].take len))) ∧
      ∀ j i, j < 1 → i < 1 →
        ((convert_data_to_bgra8 1 1 data_pitch ([10, 20, 30, 40].take len)).getD
             ((j * 1 + i) * RGBA_STRIDE) 0 =
           [10, 20, 30, 40].getD (j * data_pitch + i * RGBA_STRIDE + 2) 0 ∧
         (convert_data_to_bgra8 1 1 data_pitch ([10, 20, 30, 40].take len)).getD
             ((j * 1 + i) * RGBA_STRIDE + 1) 0 =
           [10, 20, 30, 40].getD (j * data_pitch + i * RGBA_STRIDE + 1) 0 ∧
         (convert_data_to_bgra8 1 1 data_pitch ([10, 20, 30, 40].take len)).getD
             ((j * 1 + i) * RGBA_STRIDE + 2) 0 =
           [10, 20, 30, 40].getD (j * data_pitch + i * RGBA_STRIDE) 0 ∧
         (convert_data_to_bgra8 1 1 data_pitch ([10, 20, 30, 40].take len)).getD
             ((j * 1 + i) * RGBA_STRIDE + 3) 0 =
           [10, 20, 30, 40].getD (j * data_pitch + i * RGBA_STRIDE + 3) 0)) :=
  update_texture_pixel_conversion ⟨[7], 0, 0, 0, 0, 0⟩ 7 0 0 1 1 none
    [10, 20, 30, 40] (by decide)

theorem getD_append_left {α : Type} (l1 l2 : List α) (i : Nat) (x : α)
    (h : i < l1.length) : (l1 ++ l2).getD i x = l1.getD i x := by
  rw [List.getD_eq_getElem?_getD, List.getD_eq_getElem?_getD,
    List.getElem?_append_left h]

theorem getD_append_last {α : Type} (l1 : List α) (y : α) (x : α) :
    (l1 ++ [y]).getD l1.length x = y := by
  rw [List.getD_eq_getElem?_getD, List.getElem?_append_right (Nat.le_refl _)]
  simp

theorem buildPasses_append (tasks : List (List Nat)) (ds : List Nat) :
    buildPasses (tasks ++ [ds]) = addTaskPass (buildPasses tasks) ds := by
  unfold buildPasses
  rw [List.foldl_append]
  rfl

theorem length_foldl_addTaskPass (tasks : List (List Nat)) :
    ∀ init : List Nat,
      (tasks.foldl addTaskPass init).length = init.length + tasks.length := by
  induction tasks with
  | nil => intro init; simp
  | cons t rest ih =>
      intro init
      rw [List.foldl_cons, ih]
      unfold addTaskPass
      rw [List.length_append]
      simp
      omega

theorem length_buildPasses (tasks : List (List Nat)) :
    (buildPasses tasks).length = tasks.length := by
  unfold buildPasses
  rw [length_foldl_addTaskPass]
  simp

theorem le_foldl_max_init (l : List Nat) : ∀ acc : Nat, acc ≤ l.foldl max acc := by
  induction l with
  | nil => intro acc; exact Nat.le_refl acc
  | cons x rest ih =>
      intro acc
      rw [List.foldl_cons]
      exact Nat.le_trans (Nat.le_max_left acc x) (ih (max acc x))

theorem le_foldl_max (l : List Nat) : ∀ (acc x : Nat), x ∈ l → x ≤ l.foldl max acc := by
  induction l with
  | nil => intro acc x hx; cases hx
  | cons y rest ih =>
      intro acc x hx
      rw [List.foldl_cons]
      rcases List.mem_cons.mp hx with rfl | hx2
      · exact Nat.le_trans (Nat.le_max_right acc x) (le_foldl_max_init rest (max acc x))
      · exact ih (max acc y) x hx2

theorem buildPasses_stable (tasks : List (List Nat)) (ds : List Nat) (i : Nat)
    (hi : i < tasks.length) :
    (buildPasses (tasks ++ [ds])).getD i 0 = (buildPasses tasks).getD i 0 := by
  rw [buildPasses_append]
  unfold addTaskPass
  exact getD_append_left _ _ i 0 (by rw [length_buildPasses]; exact hi)

theorem buildPasses_last (tasks : List (List Nat)) (ds : List Nat) :
    (buildPasses (tasks ++ [ds])).getD tasks.length 0 =
      if ds.isEmpty then 0
      else (ds.map (fun d => (buildPasses tasks).getD d 0)).foldl max 0 + 1 := by
  rw [buildPasses_append]
  unfold addTaskPass
  have h := getD_append_last (buildPasses tasks)
    (if ds.isEmpty then 0
     else (ds.map (fun d => (buildPasses tasks).getD d 0)).foldl max 0 + 1) 0
  rw [length_buildPasses] at h
  exact h

theorem depsWellFormed_of_append (tasks : List (List Nat)) (ds : List Nat)
    (h : depsWellFormed (tasks ++ [ds])) : depsWellFormed tasks := by
  intro t ht d hd
  apply h t (by rw [List.length_append]; omega) d
  rw [getD_append_left _ _ t ([] : List Nat) ht]
  exact hd

theorem buildPasses_formula (tasks : List (List Nat)) :
    depsWellFormed tasks → ∀ t, t < tasks.length →
      (buildPasses tasks).getD t 0 =
        if (tasks.getD t []).isEmpty then 0
        else ((tasks.getD t []).map
            (fun d => (buildPasses tasks).getD d 0)).foldl max 0 + 1 := by
  induction tasks using List.reverseRecOn with
  | nil => intro _ t ht; simp at ht
  | append_singleton ts ds ih =>
      intro hwf t ht
      rw [List.length_append] at ht
      simp only [List.length_singleton] at ht
      by_cases hlt : t < ts.length
      · have hdeps : (ts ++ [ds]).getD t [] = ts.getD t [] :=
          getD_append_left _ _ t ([] : List Nat) hlt
        rw [hdeps, buildPasses_stable ts ds t hlt]
        have hmapeq : (ts.getD t []).map
            (fun d => (buildPasses (ts ++ [ds])).getD d 0) =
            (ts.getD t []).map (fun d => (buildPasses ts).getD d 0) := by
          apply List.map_congr_left
          intro d hd
          have hdlt : d < t := depsWellFormed_of_append ts ds hwf t hlt d hd
          exact buildPasses_stable ts ds d (by omega)
        rw [hmapeq]
        exact ih (depsWellFormed_of_append ts ds hwf) t hlt
      · have hteq : t = ts.length := by omega
        subst hteq
        have hdeps : (ts ++ [ds]).getD ts.length [] = ds :=
          getD_append_last ts ds ([] : List Nat)
        rw [hdeps, buildPasses_last ts ds]
        by_cases hempty : ds.isEmpty
        · rw [if_pos hempty, if_pos hempty]
        · rw [if_neg hempty, if_neg hempty]
          have hmapeq : ds.map (fun d => (buildPasses (ts ++ [ds])).getD d 0) =
              ds.map (fun d => (buildPasses ts).getD d 0) := by
            apply List.map_congr_left
            intro d hd
            have hdlt : d < ts.length := by
              have := hwf ts.length (by rw [List.length_append]; simp) d
                (by rw [hdeps]; exact hd)
              omega
            exact buildPasses_stable ts ds d hdlt
          rw [hmapeq]

/-- C7: in a task graph built by adding each task after its dependencies,
the spec pass assignment (0 for tasks without dependencies, 1 + the
maximum pass of the dependencies otherwise) puts every dependency in a
strictly earlier pass than its dependent task. -/
theorem pass_ordering (tasks : List (List Nat)) (hwf : depsWellFormed tasks) :
    (∀ t d, t < tasks.length → d ∈ tasks.getD t [] →
      (buildPasses tasks).getD d 0 < (buildPasses tasks).getD t 0) ∧
    (∀ t, t < tasks.length →
      (buildPasses tasks).getD t 0 =
        if (tasks.getD t []).isEmpty then 0
        else ((tasks.getD t []).map
            (fun d => (buildPasses tasks).getD d 0)).foldl max 0 + 1) := by
  refine ⟨?_, buildPasses_formula tasks hwf⟩
  intro t d ht hd
  have hform := buildPasses_formula tasks hwf t ht
  have hnotempty : ¬(tasks.getD t []).isEmpty := by
    intro habs
    rw [List.isEmpty_iff.mp habs] at hd
    cases hd
  rw [hform, if_neg hnotempty]
  have hmem : (buildPasses tasks).getD d 0 ∈
      (tasks.getD t []).map (fun d => (buildPasses tasks).getD d 0) :=
    List.mem_map_of_mem _ hd
  have := le_foldl_max _ 0 _ hmem
  omega

/-- Witness for pass_ordering on a three-task graph: task 2 depends on
tasks 0 and 1, task 1 depends on task 0. -/
theorem pass_ordering_witness :
    (∀ t d, t < ([[], [0], [0, 1]] : List (List Nat)).length →
      d ∈ ([[], [0], [0, 1]] : List (List Nat)).getD t [] →
      (buildPasses [[], [0], [0, 1]]).getD d 0 <
        (buildPasses [[], [0], [0, 1]]).getD t 0) ∧
    (∀ t, t < ([[], [0], [0, 1]] : List (List Nat)).length →
      (buildPasses [[], [0], [0, 1]]).getD t 0 =
        if (([[], [0], [0, 1]] : List (List Nat)).getD t []).isEmpty then 0
        else ((([[], [0], [0, 1]] : List (List Nat)).getD t []).map
            (fun d => (buildPasses [[], [0], [0, 1]]).getD d 0)).foldl max 0 + 1) :=
  pass_ordering [[], [0], [0, 1]] (by unfold depsWellFormed; decide)

theorem chunks4_flatten : ∀ l : List Nat, (chunks4 l).flatten = l
  | [] => rfl
  | [a] => rfl
  | [a, b] => rfl
  | [a, b, c] => rfl
  | a :: b :: c :: d :: rest => by
      show ([a, b, c, d] :: chunks4 rest).flatten = _
      rw [List.flatten_cons, chunks4_flatten rest]
      rfl

theorem chunks4_length : ∀ l : List Nat, (chunks4 l).length = (l.length + 3) / 4
  | [] => rfl
  | [a] => by simp [chunks4]
  | [a, b] => by simp [chunks4]
  | [a, b, c] => by simp [chunks4]
  | a :: b :: c :: d :: rest => by
      show ([a, b, c, d] :: chunks4 rest).length = _
      rw [List.length_cons, chunks4_length rest]
      simp only [List.length_cons]
      omega

theorem eq_of_zip_eq {α : Type} :
    ∀ (l1 l2 : List α), l1.length = l2.length →
      (∀ p ∈ l1.zip l2, p.1 = p.2) → l1 = l2 := by
  intro l1
  induction l1 with
  | nil =>
      intro l2 hlen _
      cases l2 with
      | nil => rfl
      | cons y ys => simp at hlen
  | cons x rest ih =>
      intro l2 hlen hp
      cases l2 with
      | nil => simp at hlen
      | cons y rest2 =>
          have hxy : x = y := hp (x, y) (by rw [List.zip_cons_cons]; exact List.mem_cons_self _ _)
          have hrest : rest = rest2 := by
            apply ih rest2 (by simpa using hlen)
            intro p hpm
            exact hp p (by rw [List.zip_cons_cons]; exact List.mem_cons_of_mem _ hpm)
          rw [hxy, hrest]

theorem zip_self_eq {α : Type} : ∀ (l : List α), ∀ p ∈ l.zip l, p.1 = p.2 := by
  intro l
  induction l with
  | nil => intro p hp; cases hp
  | cons x rest ih =>
      intro p hp
      rw [List.zip_cons_cons] at hp
      rcases List.mem_cons.mp hp with rfl | hp2
      · rfl
      · exact ih p hp2

theorem compareFold_fst (ps : List (List Nat × List Nat)) :
    ∀ c m : Nat,
      (ps.foldl compareStep (c, m)).1 =
        c + (ps.filter (fun p => p.1 ≠ p.2)).length := by
  induction ps with
  | nil => intro c m; simp
  | cons p rest ih =>
      intro c m
      rw [List.foldl_cons, List.filter_cons]
      by_cases hq : p.1 = p.2
      · have hstep : compareStep (c, m) p = (c, m) := by
          simp [compareStep, hq]
        rw [hstep, ih]
        simp [hq]
      · have hstep : compareStep (c, m) p = (c + 1, max m (pixelMax p.1 p.2)) := by
          simp [compareStep, hq]
        rw [hstep, ih]
        simp [hq]
        omega

theorem compareFold_snd (ps : List (List Nat × List Nat)) :
    ∀ c m : Nat,
      (ps.foldl compareStep (c, m)).2 =
        ((ps.filter (fun p => p.1 ≠ p.2)).map
          (fun p => pixelMax p.1 p.2)).foldl max m := by
  induction ps with
  | nil => intro c m; simp
  | cons p rest ih =>
      intro c m
      rw [List.foldl_cons, List.filter_cons]
      by_cases hq : p.1 = p.2
      · have hstep : compareStep (c, m) p = (c, m) := by
          simp [compareStep, hq]
        rw [hstep, ih]
        simp [hq]
      · have hstep : compareStep (c, m) p = (c + 1, max m (pixelMax p.1 p.2)) := by
          simp [compareStep, hq]
        rw [hstep, ih]
        simp [hq]

/-- C3: ReftestImage::compare returns Equal exactly when the two images
are byte-for-byte identical, and otherwise returns the maximum
per-channel absolute difference over the differing pixels together with
the differing-pixel count; a reftest with op Equal passes exactly when
the images are identical or both that maximum is at most max_difference
and the count is at most num_differences. -/
theorem reftest_compare_tolerance (a b : List Nat) (md nd : Nat)
    (hlen : a.length = b.length) (hmod : a.length % 4 = 0) :
    (ReftestImage.compare a b = ReftestImageComparison.Equal ↔ a = b) ∧
    (∀ m c, ReftestImage.compare a b = ReftestImageComparison.NotEqual m c →
      m = maxPixelDifference a b ∧ c = countDifferentPixels a b) ∧
    (run_reftest_pass ReftestOp.Equal md nd (ReftestImage.compare a b) = true ↔
      (a = b ∨ (maxPixelDifference a b ≤ md ∧ countDifferentPixels a b ≤ nd))) := by
  have hcompare : ReftestImage.compare a b =
      if (((chunks4 a).zip (chunks4 b)).foldl compareStep (0, 0)).1 ≠ 0 then
        ReftestImageComparison.NotEqual
          (((chunks4 a).zip (chunks4 b)).foldl compareStep (0, 0)).2
          (((chunks4 a).zip (chunks4 b)).foldl compareStep (0, 0)).1
      else ReftestImageComparison.Equal := rfl
  have hfold1 : (((chunks4 a).zip (chunks4 b)).foldl compareStep (0, 0)).1 =
      countDifferentPixels a b := by
    rw [compareFold_fst, Nat.zero_add]
    rfl
  have hfold2 : (((chunks4 a).zip (chunks4 b)).foldl compareStep (0, 0)).2 =
      maxPixelDifference a b := by
    rw [compareFold_snd]
    rfl
  have hchlen : (chunks4 a).length = (chunks4 b).length := by
    rw [chunks4_length, chunks4_length, hlen]
  have hiff : countDifferentPixels a b = 0 ↔ a = b := by
    unfold countDifferentPixels
    constructor
    · intro h0
      have hnil := List.length_eq_zero.mp h0
      have hall := List.filter_eq_nil_iff.mp hnil
      have hchunks : chunks4 a = chunks4 b := by
        apply eq_of_zip_eq _ _ hchlen
        intro p hp
        have := hall p hp
        simpa using this
      calc a = (chunks4 a).flatten := (chunks4_flatten a).symm
        _ = (chunks4 b).flatten := by rw [hchunks]
        _ = b := chunks4_flatten b
    · intro heq
      subst heq
      have hnil : ((chunks4 a).zip (chunks4 a)).filter (fun p => p.1 ≠ p.2) = [] := by
        apply List.filter_eq_nil_iff.mpr
        intro p hp
        simpa using zip_self_eq (chunks4 a) p hp
      rw [hnil]
      rfl
  by_cases hab : a = b
  · have h0 : countDifferentPixels a b = 0 := hiff.mpr hab
    have hceq : ReftestImage.compare a b = ReftestImageComparison.Equal := by
      rw [hcompare, hfold1, if_neg (by simp [h0])]
    refine ⟨⟨fun _ => hab, fun _ => hceq⟩, ?_, ?_⟩
    · intro m c hmc
      rw [hceq] at hmc
      cases hmc
    · rw [hceq]
      constructor
      · intro _
        exact Or.inl hab
      · intro _
        rfl
  · have hne0 : countDifferentPixels a b ≠ 0 := fun h0 => hab (hiff.mp h0)
    have hceq : ReftestImage.compare a b =
        ReftestImageComparison.NotEqual (maxPixelDifference a b)
          (countDifferentPixels a b) := by
      rw [hcompare, hfold1, hfold2, if_pos hne0]
    refine ⟨⟨fun h => ?_, fun h => absurd h hab⟩, ?_, ?_⟩
    · rw [hceq] at h
      cases h
    · intro m c hmc
      rw [hceq] at hmc
      cases hmc
      exact ⟨rfl, rfl⟩
    · rw [hceq]
      have hpass : run_reftest_pass ReftestOp.Equal md nd
          (ReftestImageComparison.NotEqual (maxPixelDifference a b)
            (countDifferentPixels a b)) = true ↔
          (maxPixelDifference a b ≤ md ∧ countDifferentPixels a b ≤ nd) := by
        simp only [run_reftest_pass]
        constructor
        · intro h
          rcases Nat.decEq 0 0 with _ | _ <;>
            · by_contra hcon
              rw [if_pos] at h
              · exact Bool.noConfusion h
              · simp only [Bool.or_eq_true, decide_eq_true_eq]
                omega
        · intro h
          rw [if_neg]
          simp only [Bool.or_eq_true, decide_eq_true_eq]
          omega
      rw [hpass]
      constructor
      · intro h
        exact Or.inr h
      · intro h
        rcases h with h | h
        · exact absurd h hab
        · exact h

/-- Witness for reftest_compare_tolerance on two one-pixel images
differing by 2 in the blue channel, with fuzz bounds 2 and 1. -/
theorem reftest_compare_tolerance_witness :
    (ReftestImage.compare [0, 0, 0, 255] [0, 0, 2, 255] =
        ReftestImageComparison.Equal ↔ ([0, 0, 0, 255] : List Nat) = [0, 0, 2, 255]) ∧
    (∀ m c, ReftestImage.compare [0, 0, 0, 255] [0, 0, 2, 255] =
        ReftestImageComparison.NotEqual m c →
      m = maxPixelDifference [0, 0, 0, 255] [0, 0, 2, 255] ∧
      c = countDifferentPixels [0, 0, 0, 255] [0, 0, 2, 255]) ∧
    (run_reftest_pass ReftestOp.Equal 2 1
        (ReftestImage.compare [0, 0, 0, 255] [0, 0, 2, 255]) = true ↔
      (([0, 0, 0, 255] : List Nat) = [0, 0, 2, 255] ∨
        (maxPixelDifference [0, 0, 0, 255] [0, 0, 2, 255] ≤ 2 ∧
         countDifferentPixels [0, 0, 0, 255] [0, 0, 2, 255] ≤ 1))) :=
  reftest_compare_tolerance [0, 0, 0, 255] [0, 0, 2, 255] 2 1
    (by decide) (by decide)
